import Mathlib

/-!
Verification of the MarkThat annotation engine.

Shallow embedding of `src/app/markStore.ts` (mark store reducer and
undo/redo history wrapper), the calibration-length parsers of
`src/App.tsx`, and the rect corner-handle drag computation of
`src/viewer/SvgOverlay.tsx`.

Modelling conventions:
* JS numbers are modelled as `ℚ` (all operations the claims touch are
  exact field arithmetic, `min`/`max` and absolute value).
* JS objects with optional keys are records of `Option` fields
  (`none` = key absent / `undefined`).
* The reducer `reducePresent` returns `Option MarkState`: `none` models
  the source's `return state` paths (the very same object reference is
  returned), `some s'` models a freshly allocated object.  The history
  wrapper's `next === present` reference-equality test is therefore the
  `none`/`some` distinction, faithfully: every object literal in the
  source allocates, so a `some` result is never reference-equal to the
  input.
* `uid()` (`Math.random`-based id generation) is modelled by passing the
  generated id string as an explicit argument `fid`.
-/

namespace MarkThat

/-- A point in document (PDF) space, `{x, y}` from `markTypes.ts`. -/
structure PdfPoint where
  x : ℚ
  y : ℚ
deriving DecidableEq, Repr

/-- `Units` from `markTypes.ts`: `"ft" | "in" | "m" | "mm"`. -/
inductive Units where
  | ft | inch | m | mm
deriving DecidableEq, Repr

/-- `ScaleCal` from `markTypes.ts`. -/
structure ScaleCal where
  page : Nat
  a : PdfPoint
  b : PdfPoint
  realDistance : ℚ
  units : Units
  unitsPerPdfPoint : ℚ
deriving DecidableEq, Repr

/-- `Tool` from `markTypes.ts`. -/
inductive Tool where
  | select | edit | line | polygon | rect | circle | scale | text
deriving DecidableEq, Repr

/-- `MarkKind` from `markTypes.ts`. -/
inductive MarkKind where
  | line | polygon | rect | circle | text
deriving DecidableEq, Repr

/-- `MarkStyle` from `markTypes.ts`; every key optional. -/
structure MarkStyle where
  stroke : Option String := none
  strokeWidth : Option ℚ := none
  fill : Option String := none
deriving DecidableEq, Repr

/-- `MarkMeasure` from `markTypes.ts`; every key optional. -/
structure MarkMeasure where
  showArea : Option Bool := none
  showPerimeter : Option Bool := none
  showSegmentLengths : Option Bool := none
deriving DecidableEq, Repr

/-- A `Mark` runtime object.  The TS type is a tagged union
(`LineMark | PolygonMark | RectMark | CircleMark | TextMark`), but at
runtime a mark is a plain JS object and `UPDATE_MARK` spreads an
arbitrary `Partial<Mark>` over it (`{ ...m, ...patch }`), so the
faithful model is one record carrying every possible key, optional
unless common to all kinds. -/
structure MarkObj where
  id : String
  page : Nat
  kind : MarkKind
  style : Option MarkStyle := none
  measure : Option MarkMeasure := none
  a : Option PdfPoint := none
  b : Option PdfPoint := none
  points : Option (List PdfPoint) := none
  c : Option PdfPoint := none
  r : Option ℚ := none
  p : Option PdfPoint := none
  text : Option String := none
  fontSize : Option ℚ := none
deriving DecidableEq, Repr

/-- A `Partial<Mark>` patch: outer `none` = key not named in the patch. -/
structure MarkPatch where
  id : Option String := none
  page : Option Nat := none
  kind : Option MarkKind := none
  style : Option (Option MarkStyle) := none
  measure : Option (Option MarkMeasure) := none
  a : Option (Option PdfPoint) := none
  b : Option (Option PdfPoint) := none
  points : Option (Option (List PdfPoint)) := none
  c : Option (Option PdfPoint) := none
  r : Option (Option ℚ) := none
  p : Option (Option PdfPoint) := none
  text : Option (Option String) := none
  fontSize : Option (Option ℚ) := none
deriving DecidableEq, Repr

/-- JS shallow merge `{ ...m, ...patch }`: every key named in the patch
overwrites the mark's key, all other keys are kept. -/
def applyPatch (m : MarkObj) (pa : MarkPatch) : MarkObj where
  id := pa.id.getD m.id
  page := pa.page.getD m.page
  kind := pa.kind.getD m.kind
  style := pa.style.getD m.style
  measure := pa.measure.getD m.measure
  a := pa.a.getD m.a
  b := pa.b.getD m.b
  points := pa.points.getD m.points
  c := pa.c.getD m.c
  r := pa.r.getD m.r
  p := pa.p.getD m.p
  text := pa.text.getD m.text
  fontSize := pa.fontSize.getD m.fontSize

/-- `Draft` from `markTypes.ts` (tagged union, optional fields while the
user is still interacting). -/
inductive Draft where
  | line (page : Nat) (a b : Option PdfPoint)
  | polygon (page : Nat) (points : List PdfPoint)
  | rect (page : Nat) (a b : Option PdfPoint)
  | circle (page : Nat) (c : Option PdfPoint) (r : Option ℚ)
  | scale (page : Nat) (a b : Option PdfPoint)
  | text (page : Nat) (p : Option PdfPoint)
deriving DecidableEq, Repr

/-- The live measurement record `{ length?, area?, perimeter? }`. -/
structure Live where
  length : Option ℚ := none
  area : Option ℚ := none
  perimeter : Option ℚ := none
deriving DecidableEq, Repr

/-- The default style record of `MarkState`. -/
structure DefaultStyle where
  stroke : String
  strokeWidth : ℚ
  fill : String
deriving DecidableEq, Repr

/-- `MarkState` from `markTypes.ts`. -/
structure MarkState where
  tool : Tool
  scale : Option ScaleCal
  marks : List MarkObj
  draft : Option Draft
  live : Option Live
  selectedId : Option String
  defaultStyle : DefaultStyle
deriving DecidableEq, Repr

/-- `MarkAction` from `markTypes.ts`. -/
inductive MarkAction where
  | setTool (tool : Tool)
  | setLive (live : Option Live)
  | startDraft (draft : Draft)
  | updateDraft (draft : Draft)
  | commitDraft
  | cancelDraft
  | setScalePoint (p : PdfPoint) (page : Nat)
  | setScale (scale : ScaleCal)
  | select (id : Option String)
  | updateMark (id : String) (patch : MarkPatch)
  | deleteSelected
  | setDefaultStyle (style : DefaultStyle)
  | undo
  | redo
deriving DecidableEq, Repr

/-- `initialMarkState` from `markStore.ts`. -/
def initialMarkState : MarkState where
  tool := .select
  scale := none
  marks := []
  draft := none
  live := none
  selectedId := none
  defaultStyle := { stroke := "#60a5fa", strokeWidth := 2, fill := "rgba(96,165,250,0.15)" }

/-- JS truthiness of a `string | null` value: `null`, `undefined` and
`""` are falsy. -/
def strOptTruthy : Option String → Bool
  | none => false
  | some s => s ≠ ""

/-- `withDefaults` from `markStore.ts`: builds the style record from the
app default style, spreads `m.style ?? {}` over it (present keys of the
mark's own style win), and rebuilds `measure` as `{ ...(m.measure ?? {}) }`. -/
def withDefaults (m : MarkObj) (defaultStyle : DefaultStyle) : MarkObj :=
  let base : MarkStyle :=
    { stroke := some defaultStyle.stroke
      strokeWidth := some defaultStyle.strokeWidth
      fill :=
        if m.kind = .polygon ∨ m.kind = .rect ∨ m.kind = .circle then some defaultStyle.fill
        else none }
  let style : MarkStyle :=
    match m.style with
    | none => base
    | some st =>
      { stroke := st.stroke.or base.stroke
        strokeWidth := st.strokeWidth.or base.strokeWidth
        fill := st.fill.or base.fill }
  let measure : MarkMeasure := m.measure.getD {}
  { m with style := some style, measure := some measure }

/-- The cross term `p.x * q.y - q.x * p.y` accumulated by the
`polygonArea` loop in `markStore.ts`. -/
def cross (p q : PdfPoint) : ℚ :=
  p.x * q.y - q.x * p.y

/-- The accumulator of the `polygonArea` loop:
`s = Σ_{i < n} (points[i].x * points[(i+1) % n].y - points[(i+1) % n].x * points[i].y)`. -/
def shoelaceSum (points : List PdfPoint) : ℚ :=
  ∑ i ∈ Finset.range points.length,
    cross (points.getD i ⟨0, 0⟩) (points.getD ((i + 1) % points.length) ⟨0, 0⟩)

/-- `polygonArea` from `markStore.ts`: `Math.abs(s) / 2` for the
shoelace sum `s` (wraps last → first). -/
def polygonArea (points : List PdfPoint) : ℚ :=
  |shoelaceSum points| / 2

/-- The open-path part of the shoelace loop: the sum of `cross` over
consecutive pairs without the wrap-around term (proof helper). -/
def pathSum : List PdfPoint → ℚ
  | a :: b :: t => cross a b + pathSum (b :: t)
  | _ => 0

/-- `rectPoints` from `markStore.ts`: the four corners built from the
per-axis `min`/`max` of the rect's two stored corners `a`, `b`, in the
order `[(minX,minY), (maxX,minY), (maxX,maxY), (minX,maxY)]`.
(The source takes the `RectMark` and reads `r.a`, `r.b`; here the two
corner points are passed directly.) -/
def rectPoints (a b : PdfPoint) : List PdfPoint :=
  let minX := min a.x b.x
  let maxX := max a.x b.x
  let minY := min a.y b.y
  let maxY := max a.y b.y
  [⟨minX, minY⟩, ⟨maxX, minY⟩, ⟨maxX, maxY⟩, ⟨minX, maxY⟩]

/-- `reducePresent` from `markStore.ts`.  `fid` is the string produced by
`uid()` for this call (used only by `COMMIT_DRAFT`).  Result `none`
models the source's `return state;` (the same object reference escapes);
`some s'` models a freshly allocated state object.  -/
def reducePresent (fid : String) (state : MarkState) (action : MarkAction) : Option MarkState :=
  match action with
  | .setTool t =>
      some { state with
        tool := t
        draft := none
        live := none
        selectedId := if t = .select ∨ t = .edit then state.selectedId else none }
  | .setDefaultStyle style =>
      some { state with defaultStyle := style }
  | .select i =>
      some { state with selectedId := i }
  | .setLive l =>
      some { state with live := l }
  | .startDraft d =>
      some { state with draft := some d, live := none, selectedId := none }
  | .updateDraft d =>
      some { state with draft := some d }
  | .cancelDraft =>
      some { state with draft := none, live := none }
  | .setScalePoint p page =>
      -- `if (!d || d.kind !== "scale" || d.page !== action.page) return state;`
      match state.draft with
      | some (.scale dpage da db) =>
        if dpage = page then
          match da with
          | none => some { state with draft := some (.scale dpage (some p) db) }
          | some _ => some { state with draft := some (.scale dpage da (some p)) }
        else none
      | _ => none
  | .setScale sc =>
      some { state with scale := some sc, draft := none, live := none }
  | .updateMark i patch =>
      some { state with
        marks := state.marks.map (fun m => if m.id = i then applyPatch m patch else m) }
  | .deleteSelected =>
      -- `if (!state.selectedId) return state;` (empty string is falsy)
      match state.selectedId with
      | none => none
      | some sel =>
        if sel = "" then none
        else
          some { state with
            marks := state.marks.filter (fun m => m.id ≠ sel)
            selectedId := none
            live := none }
  | .commitDraft =>
      match state.draft with
      | none => none
      | some d =>
        match d with
        | .line page (some a) (some b) =>
          let mark := withDefaults
            { id := fid, page := page, kind := .line, a := some a, b := some b }
            state.defaultStyle
          some { state with
            marks := state.marks ++ [mark], draft := none, live := none
            selectedId := some mark.id }
        | .polygon page pts =>
          if pts.length ≥ 3 then
            let mark := withDefaults
              { id := fid, page := page, kind := .polygon, points := some pts }
              state.defaultStyle
            some { state with
              marks := state.marks ++ [mark], draft := none, live := none
              selectedId := some mark.id }
          else none
        | .rect page (some a) (some b) =>
          let mark := withDefaults
            { id := fid, page := page, kind := .rect, a := some a, b := some b }
            state.defaultStyle
          some { state with
            marks := state.marks ++ [mark], draft := none, live := none
            selectedId := some mark.id }
        | .circle page (some c) (some r) =>
          if r > 0 then
            let mark := withDefaults
              { id := fid, page := page, kind := .circle, c := some c, r := some r }
              state.defaultStyle
            some { state with
              marks := state.marks ++ [mark], draft := none, live := none
              selectedId := some mark.id }
          else none
        | .text page (some p) =>
          let mark := withDefaults
            { id := fid, page := page, kind := .text, p := some p
              text := some "Text", fontSize := some 14 }
            state.defaultStyle
          some { state with
            marks := state.marks ++ [mark], draft := none, live := none
            selectedId := some mark.id }
        | _ => none
  | .undo => none
  | .redo => none

/-- The state the source leaves in `present` after `reducePresent`:
a `return state` path keeps the input. -/
def stepPresent (fid : String) (state : MarkState) (action : MarkAction) : MarkState :=
  (reducePresent fid state action).getD state

/-- `HistoryState` from `markStore.ts`. -/
structure HistoryState where
  past : List MarkState
  present : MarkState
  future : List MarkState
deriving DecidableEq, Repr

/-- `initialHistory` from `markStore.ts`. -/
def initialHistory : HistoryState where
  past := []
  present := initialMarkState
  future := []

/-- `push` from `markStore.ts`. -/
def push (present next : MarkState) (hist : HistoryState) : HistoryState where
  past := hist.past ++ [present]
  present := next
  future := []

/-- Actions the history wrapper treats through the generic push path
(everything except `UNDO`, `REDO` and `SET_LIVE`). -/
def MarkAction.isStructural : MarkAction → Bool
  | .undo => false
  | .redo => false
  | .setLive _ => false
  | _ => true

/-- `markHistoryReducer` from `markStore.ts`.  `fid` is the id `uid()`
would produce for a commit performed by this call. -/
def markHistoryReducer (fid : String) (hist : HistoryState) (action : MarkAction) :
    HistoryState :=
  match action with
  | .undo =>
      -- `const prev = hist.past[hist.past.length - 1]; if (!prev) return hist;`
      match hist.past.getLast? with
      | none => hist
      | some prev =>
        { past := hist.past.dropLast
          present := prev
          future := hist.present :: hist.future }
  | .redo =>
      -- `const next = hist.future[0]; if (!next) return hist;`
      match hist.future with
      | [] => hist
      | next :: rest =>
        { past := hist.past ++ [hist.present]
          present := next
          future := rest }
  | .setLive l =>
      { hist with present := stepPresent fid hist.present (.setLive l) }
  | a =>
      -- `const next = reducePresent(present, action); if (next === present) return hist;`
      match reducePresent fid hist.present a with
      | none => hist
      | some next => push hist.present next hist

/-- The kind-specific commit minimum (spec §4.3): Line both endpoints,
Polygon ≥ 3 points, Rect both corners, Circle center present and radius
> 0, Text anchor present; a scale draft is never committable this way. -/
def commitMinOk : Draft → Bool
  | .line _ a b => a.isSome && b.isSome
  | .polygon _ pts => decide (pts.length ≥ 3)
  | .rect _ a b => a.isSome && b.isSome
  | .circle _ c r => c.isSome && (match r with | some rv => decide (0 < rv) | none => false)
  | .scale _ _ _ => false
  | .text _ p => p.isSome

/-- The rect corner-handle branch of `onMouseMove` in `SvgOverlay.tsx`:
`const pts = rectPoints(m); const opp = pts[(h.index + 2) % 4];`
then `UPDATE_MARK` with patch `{ a: opp, b: p }`, where `m` is the mark
as captured at drag start and `p` the pointer's current document
position.  (`rectPoints` reads `m.a`/`m.b`, present on every rect.) -/
def rectHandleDragPatch (m : MarkObj) (index : Nat) (p : PdfPoint) : MarkPatch :=
  let pts := rectPoints (m.a.getD ⟨0, 0⟩) (m.b.getD ⟨0, 0⟩)
  { a := some (some (pts.getD ((index + 2) % 4) ⟨0, 0⟩))
    b := some (some p) }

/-! ### Calibration length parsing (`src/App.tsx`) -/

/-- Value of a digit run, as read left to right. -/
def digitsToNat (cs : List Char) : Nat :=
  cs.foldl (fun n c => 10 * n + (c.toNat - '0'.toNat)) 0

/-- Unsigned decimal literal: `D+`, `D+.D*` or `.D+` (the fragment of
JS number syntax these inputs use; exponents and hex are out of the
modelled fragment). -/
def decCore (cs : List Char) : Option ℚ :=
  let ip := cs.takeWhile Char.isDigit
  let rest := cs.dropWhile Char.isDigit
  match rest with
  | [] => if ip.isEmpty then none else some (digitsToNat ip : ℚ)
  | '.' :: fp =>
      if fp.all Char.isDigit && (!ip.isEmpty || !fp.isEmpty) then
        some ((digitsToNat ip : ℚ) + (digitsToNat fp : ℚ) / ((10 : ℚ) ^ fp.length))
      else none
  | _ => none

/-- Leading/trailing-whitespace removal on a character list (the JS
`trim`), executable by kernel reduction. -/
def trimChars (cs : List Char) : List Char :=
  ((cs.dropWhile Char.isWhitespace).reverse.dropWhile Char.isWhitespace).reverse

/-- JS `String.prototype.trim`. -/
def jsTrim (s : String) : String :=
  String.mk (trimChars s.data)

/-- Model of the JS `Number(string)` conversion on decimal input:
the string is trimmed, the empty string converts to `0`, an optional
sign precedes the digits; `none` is `NaN`. -/
def jsNumber (s : String) : Option ℚ :=
  match trimChars s.data with
  | [] => some 0
  | '-' :: rest => (decCore rest).map (fun q => -q)
  | '+' :: rest => decCore rest
  | cs => decCore cs

/-- `parseNumberLoose` from `App.tsx`:
`Number(String(s).trim())`, `null` unless finite. -/
def parseNumberLoose (s : String) : Option ℚ :=
  jsNumber s

/-- Whitespace-run collapsing (`.replace(/\s+/g, " ")`): the flag says
whether the previous character was whitespace already replaced. -/
def collapseWsAux : Bool → List Char → List Char
  | _, [] => []
  | prevWs, ch :: rest =>
      if ch.isWhitespace then
        if prevWs then collapseWsAux true rest else ' ' :: collapseWsAux true rest
      else ch :: collapseWsAux false rest

/-- Input normalization of `parseFractionalInches`:
`input.toLowerCase().replace(/["]/g, "").replace(/\s+/g, " ").trim()`. -/
def normalizeFrac (s : String) : String :=
  String.mk (trimChars
    (collapseWsAux false ((s.data.map Char.toLower).filter (fun ch => ch ≠ '"'))))

/-- `(\d+)\s*\/\s*(\d+)$` with a given whole part: numerator digits,
optional spaces, `/`, optional spaces, denominator digits to the end;
a zero denominator yields `null` (the source's `den === 0` check). -/
def fracTail (whole : Nat) (cs : List Char) : Option ℚ :=
  let n := cs.takeWhile Char.isDigit
  let r1 := (cs.dropWhile Char.isDigit).dropWhile Char.isWhitespace
  if n.isEmpty then none
  else
    match r1 with
    | '/' :: r2 =>
      let r3 := r2.dropWhile Char.isWhitespace
      let d := r3.takeWhile Char.isDigit
      if d.isEmpty || !(r3.dropWhile Char.isDigit).isEmpty then none
      else if digitsToNat d = 0 then none
      else some ((whole : ℚ) + (digitsToNat n : ℚ) / (digitsToNat d : ℚ))
    | _ => none

/-- Remainders after the optional separator `(?:\s*[-\s]\s*)?`, in the
order a backtracking regex engine tries them on whitespace-collapsed
input: greedy `\s*` then a `-`, else a whitespace character as the
`[-\s]`, else the group matches nothing. -/
def afterSep (r : List Char) : List (List Char) :=
  let r1 := r.dropWhile Char.isWhitespace
  (match r1 with
   | '-' :: r2 => [r2.dropWhile Char.isWhitespace]
   | _ => []) ++
  (if (r.takeWhile Char.isWhitespace).isEmpty then [] else [r1]) ++
  [r]

/-- Backtracking over the optional whole-number group `(\d+)?` of
`^(\d+)?(?:\s*[-\s]\s*)?(\d+)\s*\/\s*(\d+)$`, longest first (greedy);
`i` is the group length currently tried. -/
def fracMatchFrom (cs : List Char) : Nat → Option ℚ
  | 0 => (afterSep cs).foldl (fun acc o => acc.or (fracTail 0 o)) none
  | i + 1 =>
      let whole := digitsToNat (cs.take (i + 1))
      let rest := cs.drop (i + 1)
      ((afterSep rest).foldl (fun acc o => acc.or (fracTail whole o)) none).or
        (fracMatchFrom cs i)

/-- The fraction regex of `parseFractionalInches`, applied to the
normalized character list. -/
def fracRegexMatch (cs : List Char) : Option ℚ :=
  fracMatchFrom cs (cs.takeWhile Char.isDigit).length

/-- `parseFractionalInches` from `App.tsx`: normalize; empty → `null`;
a plain number parses as such; otherwise the whole-space-fraction
pattern `(\d+)? sep? (\d+)/(\d+)` evaluates to `whole + num / den`. -/
def parseFractionalInches (input : String) : Option ℚ :=
  let s := normalizeFrac input
  if s = "" then none
  else
    match parseNumberLoose s with
    | some v => some v
    | none => fracRegexMatch s.data

/-- `parseFracOrZero` from `App.tsx`: `""`, `"0"`, `"0.0"`, `"0.00"`
are `0`; a plain number parses as such; else `^(\d+)\s*\/\s*(\d+)$`. -/
def parseFracOrZero (s : String) : Option ℚ :=
  let t := jsTrim s
  if t = "" || t = "0" || t = "0.0" || t = "0.00" then some 0
  else
    match parseNumberLoose t with
    | some v => some v
    | none => fracTail 0 t.data

/-- The UI units selector of the scale panel in `App.tsx`. -/
inductive UiUnits where
  | mm | m | inch | ft | ftInFrac
deriving DecidableEq, Repr

/-- `parseScaleDistanceToStoreUnits` from `App.tsx`, as a function of
the selector and the four input-field strings (`scaleInput` for the
single-field units, `scaleFt`/`scaleIn`/`scaleFrac` for ft-in-frac). -/
def parseScaleDistanceToStoreUnits (u : UiUnits)
    (scaleInput scaleFt scaleIn scaleFrac : String) : Option ℚ :=
  match u with
  | .mm | .m | .ft =>
      match parseNumberLoose (jsTrim scaleInput) with
      | some v => if v > 0 then some v else none
      | none => none
  | .inch =>
      match parseFractionalInches (jsTrim scaleInput) with
      | some v => if v > 0 then some v else none
      | none => none
  | .ftInFrac =>
      let ft := (parseNumberLoose scaleFt).getD 0
      let inch := (parseNumberLoose scaleIn).getD 0
      match parseFracOrZero scaleFrac with
      | none => none
      | some frac =>
          let totalIn := inch + frac
          let feet := ft + totalIn / 12
          if feet > 0 then some feet else none

/-! ### Concrete fixtures used by witnesses and counterexamples -/

/-- A committable line draft on page 1. -/
def sampleLineDraft : Draft := .line 1 (some ⟨0, 0⟩) (some ⟨3, 4⟩)

/-- A state holding `sampleLineDraft`. -/
def sampleLineState : MarkState := { initialMarkState with draft := some sampleLineDraft }

/-- A state holding a text draft whose anchor is picked. -/
def sampleTextState : MarkState :=
  { initialMarkState with draft := some (.text 1 (some ⟨5, 6⟩)) }

/-- A persisted rect mark with corners (0,0) and (10,10). -/
def sampleRect : MarkObj :=
  { id := "r1", page := 1, kind := .rect, a := some ⟨0, 0⟩, b := some ⟨10, 10⟩ }

/-- A state holding `sampleRect`. -/
def sampleRectState : MarkState := { initialMarkState with marks := [sampleRect] }

/-- A history with one undoable entry. -/
def sampleHistory : HistoryState :=
  { past := [initialMarkState], present := sampleRectState, future := [] }

/-- A history with one redoable entry. -/
def sampleRedoHistory : HistoryState :=
  { past := [], present := initialMarkState, future := [sampleRectState] }

/-- A patch renaming a mark and changing its kind. -/
def sampleRenamePatch : MarkPatch := { id := some "newId", kind := some .circle }

/-! ### Shoelace-sum lemmas (for claim C8) -/

theorem cross_antisymm (p q : PdfPoint) : cross p q = -cross q p := by
  unfold cross; ring

theorem pathSum_eq_sum (l : List PdfPoint) :
    pathSum l = ∑ i ∈ Finset.range (l.length - 1),
      cross (l.getD i ⟨0, 0⟩) (l.getD (i + 1) ⟨0, 0⟩) := by
  induction l with
  | nil => simp [pathSum]
  | cons a t ih =>
    cases t with
    | nil => simp [pathSum]
    | cons b t2 =>
      rw [pathSum, ih]
      rw [show (a :: b :: t2).length - 1 = t2.length + 1 by simp]
      rw [Finset.sum_range_succ']
      simp only [List.getD_cons_succ, List.getD_cons_zero, List.length_cons,
        Nat.add_sub_cancel]
      ring

theorem shoelace_eq_pathSum (l : List PdfPoint) (h : l ≠ []) :
    shoelaceSum l = pathSum l + cross (l.getLast h) (l.head h) := by
  obtain ⟨a, t, rfl⟩ := List.exists_cons_of_ne_nil h
  unfold shoelaceSum
  rw [List.length_cons, Finset.sum_range_succ]
  have hmod : (t.length + 1) % (t.length + 1) = 0 := Nat.mod_self _
  have hlast : (a :: t).getD t.length ⟨0, 0⟩ = (a :: t).getLast h := by
    rw [List.getD_eq_getElem _ _ (by simp), List.getLast_eq_getElem]
    simp
  have hsum : ∀ i ∈ Finset.range t.length,
      cross ((a :: t).getD i ⟨0, 0⟩) ((a :: t).getD ((i + 1) % (t.length + 1)) ⟨0, 0⟩)
        = cross ((a :: t).getD i ⟨0, 0⟩) ((a :: t).getD (i + 1) ⟨0, 0⟩) := by
    intro i hi
    rw [Nat.mod_eq_of_lt (by simpa using Finset.mem_range.mp hi)]
  rw [Finset.sum_congr rfl hsum, hmod, hlast]
  rw [pathSum_eq_sum]
  simp [List.head_cons]

theorem pathSum_append_last (t : List PdfPoint) (p : PdfPoint) (h : t ≠ []) :
    pathSum (t ++ [p]) = pathSum t + cross (t.getLast h) p := by
  induction t with
  | nil => exact absurd rfl h
  | cons a t2 ih =>
    cases t2 with
    | nil => simp [pathSum]
    | cons b t3 =>
      have hne : (b :: t3) ≠ [] := by simp
      rw [List.cons_append, List.cons_append, pathSum, ← List.cons_append, ih hne]
      rw [pathSum, List.getLast_cons hne]
      ring

theorem shoelace_rotate_one (l : List PdfPoint) :
    shoelaceSum (l.rotate 1) = shoelaceSum l := by
  cases l with
  | nil => rw [List.rotate_nil]
  | cons a t =>
    rw [List.rotate_cons_succ, List.rotate_zero]
    cases t with
    | nil => rfl
    | cons b t2 =>
      have hne : (b :: t2) ≠ [] := by simp
      have hne2 : (b :: t2) ++ [a] ≠ [] := by simp
      have hne3 : (a :: b :: t2) ≠ [] := by simp
      rw [shoelace_eq_pathSum _ hne2, shoelace_eq_pathSum _ hne3]
      rw [pathSum_append_last _ _ hne]
      rw [List.getLast_append_singleton, pathSum, List.getLast_cons hne]
      simp only [List.cons_append, List.head_cons]
      ring

theorem shoelace_rotate (l : List PdfPoint) (k : Nat) :
    shoelaceSum (l.rotate k) = shoelaceSum l := by
  induction k generalizing l with
  | zero => rw [List.rotate_zero]
  | succ k ih =>
    rw [show k + 1 = 1 + k from Nat.add_comm k 1, ← List.rotate_rotate]
    rw [ih, shoelace_rotate_one]

theorem pathSum_reverse (l : List PdfPoint) : pathSum l.reverse = -pathSum l := by
  induction l with
  | nil => simp [pathSum]
  | cons a t ih =>
    cases t with
    | nil => simp [pathSum]
    | cons b t2 =>
      have hne : (b :: t2).reverse ≠ [] := by simp
      rw [List.reverse_cons, pathSum_append_last _ _ hne, ih]
      rw [List.getLast_reverse hne, pathSum]
      simp only [List.head_cons]
      rw [cross_antisymm]
      ring

theorem shoelace_reverse (l : List PdfPoint) : shoelaceSum l.reverse = -shoelaceSum l := by
  cases l with
  | nil => simp [shoelaceSum]
  | cons a t =>
    have h1 : (a :: t) ≠ [] := by simp
    have h2 : (a :: t).reverse ≠ [] := by simp
    rw [shoelace_eq_pathSum _ h2, shoelace_eq_pathSum _ h1, pathSum_reverse]
    rw [List.getLast_reverse h2, List.head_reverse h2]
    rw [cross_antisymm]
    ring

/-! ### Claim theorems -/

/-- C8: `polygonArea` (the shoelace sum over consecutive pairs wrapping
last to first, taken as absolute value and halved) is invariant under
cyclic rotation and under reversal of the point list. -/
theorem polygonArea_rotation_reversal_invariant (points : List PdfPoint) (k : Nat) :
    polygonArea (points.rotate k) = polygonArea points
    ∧ polygonArea points.reverse = polygonArea points := by
  unfold polygonArea
  rw [shoelace_rotate, shoelace_reverse, abs_neg]
  exact ⟨rfl, rfl⟩

/-- C1: `COMMIT_DRAFT` validates the kind-specific minimum; on success
it appends exactly one new mark — carrying the freshly generated id
`fid` and the current default style — to the end of `marks`, clears
draft and live measurement, and selects the new mark; on failure (and
for an absent or scale draft) it returns the input state with the draft
retained and no mark appended. -/
theorem commitDraft_validates_minimum (fid : String) (s : MarkState) :
    (∀ d, s.draft = some d → commitMinOk d = true →
      ∃ nm : MarkObj,
        reducePresent fid s .commitDraft
          = some { s with marks := s.marks ++ [nm], draft := none, live := none,
                          selectedId := some fid }
        ∧ nm.id = fid
        ∧ ∃ st, nm.style = some st
            ∧ st.stroke = some s.defaultStyle.stroke
            ∧ st.strokeWidth = some s.defaultStyle.strokeWidth
            ∧ st.fill = (if nm.kind = .polygon ∨ nm.kind = .rect ∨ nm.kind = .circle
                then some s.defaultStyle.fill else none))
    ∧ (∀ d, s.draft = some d → commitMinOk d = false →
        reducePresent fid s .commitDraft = none ∧ stepPresent fid s .commitDraft = s)
    ∧ (s.draft = none → reducePresent fid s .commitDraft = none) := by
  refine ⟨?_, ?_, ?_⟩
  · intro d hd hmin
    cases d with
    | line page a b =>
      cases a with
      | none => simp [commitMinOk] at hmin
      | some av =>
        cases b with
        | none => simp [commitMinOk] at hmin
        | some bv =>
          refine ⟨withDefaults
            { id := fid, page := page, kind := .line, a := some av, b := some bv }
            s.defaultStyle, ?_, rfl, ?_⟩
          · simp [reducePresent, hd, withDefaults]
          · exact ⟨_, rfl, rfl, rfl, rfl⟩
    | polygon page pts =>
      have hlen : pts.length ≥ 3 := by simpa [commitMinOk] using hmin
      refine ⟨withDefaults
        { id := fid, page := page, kind := .polygon, points := some pts }
        s.defaultStyle, ?_, rfl, ?_⟩
      · simp [reducePresent, hd, hlen, withDefaults]
      · exact ⟨_, rfl, rfl, rfl, rfl⟩
    | rect page a b =>
      cases a with
      | none => simp [commitMinOk] at hmin
      | some av =>
        cases b with
        | none => simp [commitMinOk] at hmin
        | some bv =>
          refine ⟨withDefaults
            { id := fid, page := page, kind := .rect, a := some av, b := some bv }
            s.defaultStyle, ?_, rfl, ?_⟩
          · simp [reducePresent, hd, withDefaults]
          · exact ⟨_, rfl, rfl, rfl, rfl⟩
    | circle page c r =>
      cases c with
      | none => simp [commitMinOk] at hmin
      | some cv =>
        cases r with
        | none => simp [commitMinOk] at hmin
        | some rv =>
          have hr : rv > 0 := by simpa [commitMinOk] using hmin
          refine ⟨withDefaults
            { id := fid, page := page, kind := .circle, c := some cv, r := some rv }
            s.defaultStyle, ?_, rfl, ?_⟩
          · simp [reducePresent, hd, hr, withDefaults]
          · exact ⟨_, rfl, rfl, rfl, rfl⟩
    | scale page a b => simp [commitMinOk] at hmin
    | text page p =>
      cases p with
      | none => simp [commitMinOk] at hmin
      | some pv =>
        refine ⟨withDefaults
          { id := fid, page := page, kind := .text, p := some pv
            text := some "Text", fontSize := some 14 }
          s.defaultStyle, ?_, rfl, ?_⟩
        · simp [reducePresent, hd, withDefaults]
        · exact ⟨_, rfl, rfl, rfl, rfl⟩
  · intro d hd hmin
    have hnone : reducePresent fid s .commitDraft = none := by
      cases d with
      | line page a b =>
        cases a <;> cases b <;> simp_all [commitMinOk, reducePresent, hd]
      | polygon page pts =>
        have hlen : ¬ pts.length ≥ 3 := by simpa [commitMinOk] using hmin
        simp [reducePresent, hd, hlen]
      | rect page a b =>
        cases a <;> cases b <;> simp_all [commitMinOk, reducePresent, hd]
      | circle page c r =>
        cases c <;> cases r <;> simp_all [commitMinOk, reducePresent, hd]
      | scale page a b => simp [reducePresent, hd]
      | text page p =>
        cases p <;> simp_all [commitMinOk, reducePresent, hd]
    exact ⟨hnone, by simp [stepPresent, hnone]⟩
  · intro h
    simp [reducePresent, h]

/-- Witness for C1: committing a complete line draft from
`sampleLineState` with fresh id `"m1"`. -/
theorem commitDraft_validates_minimum_witness :
    commitMinOk sampleLineDraft = true
    ∧ (∃ nm : MarkObj,
        reducePresent "m1" sampleLineState .commitDraft
          = some { sampleLineState with
                    marks := sampleLineState.marks ++ [nm], draft := none, live := none,
                    selectedId := some "m1" }
        ∧ nm.id = "m1"
        ∧ ∃ st, nm.style = some st
            ∧ st.stroke = some sampleLineState.defaultStyle.stroke
            ∧ st.strokeWidth = some sampleLineState.defaultStyle.strokeWidth
            ∧ st.fill = (if nm.kind = .polygon ∨ nm.kind = .rect ∨ nm.kind = .circle
                then some sampleLineState.defaultStyle.fill else none)) :=
  ⟨by decide,
   (commitDraft_validates_minimum "m1" sampleLineState).1 sampleLineDraft rfl (by decide)⟩

/-- One `SET_LIVE` through the history wrapper only replaces
`present.live`. -/
theorem setLive_step (fid : String) (h : HistoryState) (lv : Option Live) :
    markHistoryReducer fid h (.setLive lv)
      = { h with present := { h.present with live := lv } } := by
  simp [markHistoryReducer, stepPresent, reducePresent]

/-- Folding any number of `SET_LIVE` actions leaves `past` and `future`
untouched. -/
theorem foldl_setLive_past_future (fid : String) (ls : List (Option Live)) (h : HistoryState) :
    (ls.foldl (fun acc lv => markHistoryReducer fid acc (.setLive lv)) h).past = h.past
    ∧ (ls.foldl (fun acc lv => markHistoryReducer fid acc (.setLive lv)) h).future
        = h.future := by
  induction ls generalizing h with
  | nil => exact ⟨rfl, rfl⟩
  | cons lv ls ih =>
    simp only [List.foldl_cons]
    rw [setLive_step]
    exact ih _

/-- `UNDO` with a nonempty past pops the last entry into `present` and
pushes the old present onto the front of `future`. -/
theorem undo_pop (fid : String) (g : HistoryState) (prev : MarkState)
    (hg : g.past.getLast? = some prev) :
    markHistoryReducer fid g .undo
      = { past := g.past.dropLast, present := prev, future := g.present :: g.future } := by
  simp [markHistoryReducer, hg]

/-- `REDO` with a nonempty future pops its first entry into `present`
and pushes the old present onto the end of `past`. -/
theorem redo_pop (fid : String) (g : HistoryState) (nx : MarkState) (rest : List MarkState)
    (hg : g.future = nx :: rest) :
    markHistoryReducer fid g .redo
      = { past := g.past ++ [g.present], present := nx, future := rest } := by
  simp [markHistoryReducer, hg]

/-- C2: `SET_LIVE` updates `present` only (past and future exactly
unchanged); N consecutive `SET_LIVE` actions leave the history depth
unchanged, and a following `UNDO` still reverts the last structural
action (popping the pre-existing last entry of `past`). -/
theorem setLive_bypasses_history (fid : String) (hist : HistoryState)
    (ls : List (Option Live)) (l : Option Live) (prev : MarkState)
    (hp : hist.past.getLast? = some prev) :
    markHistoryReducer fid hist (.setLive l)
        = { hist with present := { hist.present with live := l } }
    ∧ (ls.foldl (fun acc lv => markHistoryReducer fid acc (.setLive lv)) hist).past
        = hist.past
    ∧ (ls.foldl (fun acc lv => markHistoryReducer fid acc (.setLive lv)) hist).future
        = hist.future
    ∧ (ls.foldl (fun acc lv => markHistoryReducer fid acc (.setLive lv)) hist).past.length
        = hist.past.length
    ∧ markHistoryReducer fid
        (ls.foldl (fun acc lv => markHistoryReducer fid acc (.setLive lv)) hist) .undo
        = { past := hist.past.dropLast
            present := prev
            future :=
              (ls.foldl (fun acc lv => markHistoryReducer fid acc (.setLive lv)) hist).present
                :: hist.future } := by
  obtain ⟨hpast, hfut⟩ := foldl_setLive_past_future fid ls hist
  refine ⟨setLive_step fid hist l, hpast, hfut, by rw [hpast], ?_⟩
  rw [undo_pop fid _ prev (by rw [hpast]; exact hp), hpast, hfut]

/-- Witness for C2: two live updates on a one-entry history, then undo. -/
theorem setLive_bypasses_history_witness :
    markHistoryReducer "f" sampleHistory (.setLive none)
        = { sampleHistory with present := { sampleHistory.present with live := none } }
    ∧ ([some { length := some 1 }, none].foldl
          (fun acc lv => markHistoryReducer "f" acc (.setLive lv)) sampleHistory).past
        = sampleHistory.past
    ∧ ([some { length := some 1 }, none].foldl
          (fun acc lv => markHistoryReducer "f" acc (.setLive lv)) sampleHistory).future
        = sampleHistory.future
    ∧ ([some { length := some 1 }, none].foldl
          (fun acc lv => markHistoryReducer "f" acc (.setLive lv)) sampleHistory).past.length
        = sampleHistory.past.length
    ∧ markHistoryReducer "f"
        ([some { length := some 1 }, none].foldl
          (fun acc lv => markHistoryReducer "f" acc (.setLive lv)) sampleHistory) .undo
        = { past := sampleHistory.past.dropLast
            present := initialMarkState
            future :=
              ([some { length := some 1 }, none].foldl
                (fun acc lv => markHistoryReducer "f" acc (.setLive lv)) sampleHistory).present
                :: sampleHistory.future } :=
  setLive_bypasses_history "f" sampleHistory [some { length := some 1 }, none] none
    initialMarkState (by decide)

/-- C3: a structural action that produces a new present pushes the old
present; `UNDO` then `REDO` restores the exact post-action present.
`UNDO` pops the last entry of `past` into `present` and pushes the old
present onto the front of `future`; `REDO` pops the first entry of
`future` into `present` and pushes the old present onto the end of
`past`. -/
theorem undo_redo_roundtrip (fid : String) (h g1 g2 : HistoryState) (x : MarkAction)
    (s' prev nx : MarkState) (rest : List MarkState)
    (hstruct : x.isStructural = true)
    (hred : reducePresent fid h.present x = some s')
    (hg1 : g1.past.getLast? = some prev)
    (hg2 : g2.future = nx :: rest) :
    markHistoryReducer fid h x
        = { past := h.past ++ [h.present], present := s', future := [] }
    ∧ (markHistoryReducer fid
        (markHistoryReducer fid (markHistoryReducer fid h x) .undo) .redo).present
        = (markHistoryReducer fid h x).present
    ∧ markHistoryReducer fid g1 .undo
        = { past := g1.past.dropLast, present := prev, future := g1.present :: g1.future }
    ∧ markHistoryReducer fid g2 .redo
        = { past := g2.past ++ [g2.present], present := nx, future := rest } := by
  have h1 : markHistoryReducer fid h x
      = { past := h.past ++ [h.present], present := s', future := [] } := by
    cases x <;> simp_all [markHistoryReducer, MarkAction.isStructural, push]
  have h2 : markHistoryReducer fid
      ({ past := h.past ++ [h.present], present := s', future := [] } : HistoryState) .undo
      = { past := h.past, present := h.present, future := [s'] } := by
    simp [markHistoryReducer]
  have h3 : markHistoryReducer fid
      ({ past := h.past, present := h.present, future := [s'] } : HistoryState) .redo
      = { past := h.past ++ [h.present], present := s', future := [] } := by
    simp [markHistoryReducer]
  refine ⟨h1, ?_, ?_, ?_⟩
  · rw [h1, h2, h3]
  · simp [markHistoryReducer, hg1]
  · simp [markHistoryReducer, hg2]

/-- Witness for C3: selecting the sample mark on `sampleHistory`, then
undo, then redo; plus concrete undo and redo pops. -/
theorem undo_redo_roundtrip_witness :
    markHistoryReducer "f" sampleHistory (.select (some "r1"))
        = { past := sampleHistory.past ++ [sampleHistory.present]
            present := { sampleRectState with selectedId := some "r1" }
            future := [] }
    ∧ (markHistoryReducer "f"
        (markHistoryReducer "f"
          (markHistoryReducer "f" sampleHistory (.select (some "r1"))) .undo) .redo).present
        = (markHistoryReducer "f" sampleHistory (.select (some "r1"))).present
    ∧ markHistoryReducer "f" sampleHistory .undo
        = { past := sampleHistory.past.dropLast, present := initialMarkState
            future := sampleHistory.present :: sampleHistory.future }
    ∧ markHistoryReducer "f" sampleRedoHistory .redo
        = { past := sampleRedoHistory.past ++ [sampleRedoHistory.present]
            present := sampleRectState, future := [] } :=
  undo_redo_roundtrip "f" sampleHistory sampleHistory sampleRedoHistory
    (.select (some "r1")) { sampleRectState with selectedId := some "r1" }
    initialMarkState sampleRectState [] rfl rfl (by decide) rfl

/-- Patching with an id carried by no mark leaves the mark list
pointwise unchanged. -/
theorem map_patch_not_mem (marks : List MarkObj) (i : String) (patch : MarkPatch)
    (h : i ∉ marks.map (·.id)) :
    marks.map (fun m => if m.id = i then applyPatch m patch else m) = marks := by
  induction marks with
  | nil => rfl
  | cons m t ih =>
    simp only [List.map_cons, List.mem_cons] at h
    push_neg at h
    simp only [List.map_cons]
    rw [if_neg (fun hh => h.1 hh.symm), ih h.2]

/-- C5 counterexample: `SELECT` with an id that occurs in no mark is not
a no-op — it changes the state's selection to that id. -/
theorem select_unknown_id_changes_state :
    stepPresent "f" initialMarkState (.select (some "zzz")) ≠ initialMarkState := by
  decide

/-- C5 (amended): for an id not occurring among the marks, `UPDATE_MARK`
leaves the state unchanged and raises no error, while `SELECT`
unconditionally stores the given id as the selection (changing only
`selectedId`) and raises no error. -/
theorem unknown_id_ops (fid : String) (s : MarkState) (i : String) (patch : MarkPatch)
    (hni : i ∉ s.marks.map (·.id)) :
    stepPresent fid s (.updateMark i patch) = s
    ∧ reducePresent fid s (.select (some i)) = some { s with selectedId := some i } := by
  refine ⟨?_, rfl⟩
  simp only [stepPresent, reducePresent, map_patch_not_mem s.marks i patch hni]
  rfl

/-- Witness for C5 (amended): patching / selecting the absent id
`"zzz"` on `sampleRectState`. -/
theorem unknown_id_ops_witness :
    stepPresent "f" sampleRectState (.updateMark "zzz" sampleRenamePatch) = sampleRectState
    ∧ reducePresent "f" sampleRectState (.select (some "zzz"))
        = some { sampleRectState with selectedId := some "zzz" } :=
  unknown_id_ops "f" sampleRectState "zzz" sampleRenamePatch (by decide)

/-- C6 counterexample: cancelling twice through the history wrapper is
not the same as cancelling once — each cancel allocates a fresh state
object, so each one pushes an undo entry. -/
theorem cancelDraft_twice_history_differs :
    markHistoryReducer "f" (markHistoryReducer "f" initialHistory .cancelDraft) .cancelDraft
      ≠ markHistoryReducer "f" initialHistory .cancelDraft := by
  decide

/-- C6 (amended): `CANCEL_DRAFT` is idempotent on the present state —
the second cancel reproduces the same present, and the cancel
unconditionally discards draft and live measurement — but each
application through the mutation entrypoint pushes one more history
snapshot (the reducer always returns a new object), so the undo history
after two cancels has exactly one more entry than after one. -/
theorem cancelDraft_idempotent_on_present (fid : String) (h : HistoryState) :
    (markHistoryReducer fid (markHistoryReducer fid h .cancelDraft) .cancelDraft).present
      = (markHistoryReducer fid h .cancelDraft).present
    ∧ (markHistoryReducer fid h .cancelDraft).present.draft = none
    ∧ (markHistoryReducer fid h .cancelDraft).present.live = none
    ∧ (markHistoryReducer fid (markHistoryReducer fid h .cancelDraft) .cancelDraft).past
      = (markHistoryReducer fid h .cancelDraft).past
          ++ [(markHistoryReducer fid h .cancelDraft).present]
    ∧ (markHistoryReducer fid (markHistoryReducer fid h .cancelDraft) .cancelDraft).future
      = [] := by
  simp [markHistoryReducer, reducePresent, push]

/-- C7: a rect corner-handle drag recomputes the rect from the pointer's
current document position: the grabbed corner index `i` is replaced by
the pointer, the opposite corner `rectPoints[(i+2) % 4]` (a corner of
the original rect) is held fixed as the new `a`, and the mark's id and
kind are untouched; the dispatched `UPDATE_MARK` rewrites exactly the
marks carrying the dragged mark's id. -/
theorem rect_corner_drag (fid : String) (s : MarkState) (m : MarkObj) (i : Nat)
    (ptr ca cb : PdfPoint)
    (hk : m.kind = .rect) (ha : m.a = some ca) (hb : m.b = some cb) (hi : i < 4) :
    (applyPatch m (rectHandleDragPatch m i ptr)).a
        = some ((rectPoints ca cb).getD ((i + 2) % 4) ⟨0, 0⟩)
    ∧ (applyPatch m (rectHandleDragPatch m i ptr)).b = some ptr
    ∧ (applyPatch m (rectHandleDragPatch m i ptr)).id = m.id
    ∧ (applyPatch m (rectHandleDragPatch m i ptr)).kind = .rect
    ∧ (rectPoints ca cb).getD ((i + 2) % 4) ⟨0, 0⟩ ∈ rectPoints ca cb
    ∧ (stepPresent fid s (.updateMark m.id (rectHandleDragPatch m i ptr))).marks
        = s.marks.map
            (fun mk => if mk.id = m.id then applyPatch mk (rectHandleDragPatch m i ptr) else mk) := by
  refine ⟨?_, rfl, rfl, ?_, ?_, rfl⟩
  · simp [applyPatch, rectHandleDragPatch, ha, hb]
  · simp [applyPatch, rectHandleDragPatch, hk]
  · have hlt : (i + 2) % 4 < (rectPoints ca cb).length := by
      have : (i + 2) % 4 < 4 := Nat.mod_lt _ (by norm_num)
      simpa [rectPoints] using this
    rw [List.getD_eq_getElem _ _ hlt]
    exact List.getElem_mem _

/-- Witness for C7 (the spec scenario): grabbing `sampleRect`'s corner
(10,10) (handle index 2) and dragging to (20,20) with opposite corner
(0,0) yields the rect with corners (0,0) and (20,20). -/
theorem rect_corner_drag_witness :
    ((applyPatch sampleRect (rectHandleDragPatch sampleRect 2 ⟨20, 20⟩)).a
        = some ((rectPoints ⟨0, 0⟩ ⟨10, 10⟩).getD ((2 + 2) % 4) ⟨0, 0⟩)
      ∧ (applyPatch sampleRect (rectHandleDragPatch sampleRect 2 ⟨20, 20⟩)).b = some ⟨20, 20⟩
      ∧ (applyPatch sampleRect (rectHandleDragPatch sampleRect 2 ⟨20, 20⟩)).id = sampleRect.id
      ∧ (applyPatch sampleRect (rectHandleDragPatch sampleRect 2 ⟨20, 20⟩)).kind = .rect
      ∧ (rectPoints ⟨0, 0⟩ ⟨10, 10⟩).getD ((2 + 2) % 4) ⟨0, 0⟩ ∈ rectPoints ⟨0, 0⟩ ⟨10, 10⟩
      ∧ (stepPresent "f" sampleRectState
            (.updateMark sampleRect.id (rectHandleDragPatch sampleRect 2 ⟨20, 20⟩))).marks
          = sampleRectState.marks.map
              (fun mk => if mk.id = sampleRect.id
                then applyPatch mk (rectHandleDragPatch sampleRect 2 ⟨20, 20⟩) else mk))
    ∧ (applyPatch sampleRect (rectHandleDragPatch sampleRect 2 ⟨20, 20⟩)).a = some ⟨0, 0⟩
    ∧ rectPoints ⟨0, 0⟩ ⟨20, 20⟩
        = [⟨0, 0⟩, ⟨20, 0⟩, ⟨20, 20⟩, ⟨0, 20⟩] :=
  ⟨rect_corner_drag "f" sampleRectState sampleRect 2 ⟨20, 20⟩ ⟨0, 0⟩ ⟨10, 10⟩
      rfl rfl rfl (by norm_num),
   by decide, by decide⟩

/-- C9: committing a text draft always produces a mark with the constant
text `"Text"` and the constant font size 14 (the draft carries no text
to honour). -/
theorem commit_text_uses_constants (fid : String) (s : MarkState) (pg : Nat) (pt : PdfPoint)
    (hd : s.draft = some (.text pg (some pt))) :
    ∃ nm : MarkObj,
      reducePresent fid s .commitDraft
        = some { s with marks := s.marks ++ [nm], draft := none, live := none,
                        selectedId := some fid }
      ∧ nm.kind = .text ∧ nm.p = some pt
      ∧ nm.text = some "Text" ∧ nm.fontSize = some 14 := by
  refine ⟨withDefaults
    { id := fid, page := pg, kind := .text, p := some pt
      text := some "Text", fontSize := some 14 } s.defaultStyle, ?_, rfl, rfl, rfl, rfl⟩
  simp [reducePresent, hd, withDefaults]

/-- Witness for C9: committing `sampleTextState`'s text draft. -/
theorem commit_text_uses_constants_witness :
    ∃ nm : MarkObj,
      reducePresent "t1" sampleTextState .commitDraft
        = some { sampleTextState with
                  marks := sampleTextState.marks ++ [nm], draft := none, live := none,
                  selectedId := some "t1" }
      ∧ nm.kind = .text ∧ nm.p = some ⟨5, 6⟩
      ∧ nm.text = some "Text" ∧ nm.fontSize = some 14 :=
  commit_text_uses_constants "t1" sampleTextState 1 ⟨5, 6⟩ rfl

/-- C10: `UPDATE_MARK` replaces each mark whose id matches by the
shallow merge of the patch over the mark, with no field restriction:
every key named in the patch — id and kind included — is overwritten by
the patch's value. -/
theorem updateMark_shallow_merge_unrestricted (fid : String) (s : MarkState)
    (i : String) (patch : MarkPatch) (m : MarkObj) (j : String) (k : MarkKind)
    (hid : patch.id = some j) (hkind : patch.kind = some k) :
    reducePresent fid s (.updateMark i patch)
      = some { s with
                marks := s.marks.map (fun mk => if mk.id = i then applyPatch mk patch else mk) }
    ∧ (applyPatch m patch).id = j
    ∧ (applyPatch m patch).kind = k
    ∧ applyPatch m patch
        = { id := patch.id.getD m.id, page := patch.page.getD m.page
            kind := patch.kind.getD m.kind, style := patch.style.getD m.style
            measure := patch.measure.getD m.measure, a := patch.a.getD m.a
            b := patch.b.getD m.b, points := patch.points.getD m.points
            c := patch.c.getD m.c, r := patch.r.getD m.r, p := patch.p.getD m.p
            text := patch.text.getD m.text, fontSize := patch.fontSize.getD m.fontSize } :=
  ⟨rfl, by simp [applyPatch, hid], by simp [applyPatch, hkind], rfl⟩

/-- Witness for C10: renaming `sampleRect` to `"newId"` and changing its
kind to circle via a patch. -/
theorem updateMark_shallow_merge_unrestricted_witness :
    reducePresent "f" sampleRectState (.updateMark "r1" sampleRenamePatch)
      = some { sampleRectState with
                marks := sampleRectState.marks.map
                  (fun mk => if mk.id = "r1" then applyPatch mk sampleRenamePatch else mk) }
    ∧ (applyPatch sampleRect sampleRenamePatch).id = "newId"
    ∧ (applyPatch sampleRect sampleRenamePatch).kind = .circle
    ∧ applyPatch sampleRect sampleRenamePatch
        = { id := sampleRenamePatch.id.getD sampleRect.id
            page := sampleRenamePatch.page.getD sampleRect.page
            kind := sampleRenamePatch.kind.getD sampleRect.kind
            style := sampleRenamePatch.style.getD sampleRect.style
            measure := sampleRenamePatch.measure.getD sampleRect.measure
            a := sampleRenamePatch.a.getD sampleRect.a
            b := sampleRenamePatch.b.getD sampleRect.b
            points := sampleRenamePatch.points.getD sampleRect.points
            c := sampleRenamePatch.c.getD sampleRect.c
            r := sampleRenamePatch.r.getD sampleRect.r
            p := sampleRenamePatch.p.getD sampleRect.p
            text := sampleRenamePatch.text.getD sampleRect.text
            fontSize := sampleRenamePatch.fontSize.getD sampleRect.fontSize } :=
  updateMark_shallow_merge_unrestricted "f" sampleRectState "r1" sampleRenamePatch
    sampleRect "newId" .circle rfl rfl

/-- C4: the calibration length parsing accepts plain decimals, simple
fractions `a/b` and mixed fractions `a b/c` (`"10 3/4"` parses to 10.75,
`"3/8"` to 0.375, `"2.5"` to 2.5); `""` and `"0"` parse to 0 in the
loose-number and fraction fields; the three ft-in-fraction fields
combine as `feet + (inches + fraction) / 12`; and a zero parse result is
rejected (`none`) rather than applied. -/
theorem calibration_parser_spec (sInp sFt sIn sFr : String) (fv iv rv : ℚ)
    (hft : parseNumberLoose sFt = some fv)
    (hin : parseNumberLoose sIn = some iv)
    (hfr : parseFracOrZero sFr = some rv) :
    parseFractionalInches "10 3/4" = some (43 / 4 : ℚ)
    ∧ parseFractionalInches "3/8" = some (3 / 8 : ℚ)
    ∧ parseFractionalInches "2.5" = some (5 / 2 : ℚ)
    ∧ parseNumberLoose "" = some 0
    ∧ parseFracOrZero "" = some 0
    ∧ parseFracOrZero "0" = some 0
    ∧ parseScaleDistanceToStoreUnits .ftInFrac sInp sFt sIn sFr
        = (if 0 < fv + (iv + rv) / 12 then some (fv + (iv + rv) / 12) else none)
    ∧ parseScaleDistanceToStoreUnits .inch "0" sFt sIn sFr = none
    ∧ parseScaleDistanceToStoreUnits .ftInFrac sInp "" "" "" = none := by
  refine ⟨by with_unfolding_all rfl, by with_unfolding_all rfl, by with_unfolding_all rfl,
    by with_unfolding_all rfl, by with_unfolding_all rfl, by with_unfolding_all rfl,
    ?_, by with_unfolding_all rfl, by with_unfolding_all rfl⟩
  simp only [parseScaleDistanceToStoreUnits, hft, hin, hfr, Option.getD_some]

/-- Witness for C4: the ft-in-frac boxes `"1"` ft, `"6"` in, `"3/8"`
give `1 + (6 + 3/8) / 12`. -/
theorem calibration_parser_spec_witness :
    parseNumberLoose "1" = some 1
    ∧ parseNumberLoose "6" = some 6
    ∧ parseFracOrZero "3/8" = some (3 / 8 : ℚ)
    ∧ (parseFractionalInches "10 3/4" = some (43 / 4 : ℚ)
      ∧ parseFractionalInches "3/8" = some (3 / 8 : ℚ)
      ∧ parseFractionalInches "2.5" = some (5 / 2 : ℚ)
      ∧ parseNumberLoose "" = some 0
      ∧ parseFracOrZero "" = some 0
      ∧ parseFracOrZero "0" = some 0
      ∧ parseScaleDistanceToStoreUnits .ftInFrac "" "1" "6" "3/8"
          = (if 0 < (1 : ℚ) + (6 + 3 / 8) / 12 then some ((1 : ℚ) + (6 + 3 / 8) / 12) else none)
      ∧ parseScaleDistanceToStoreUnits .inch "0" "1" "6" "3/8" = none
      ∧ parseScaleDistanceToStoreUnits .ftInFrac "" "" "" "" = none) :=
  ⟨by with_unfolding_all rfl, by with_unfolding_all rfl, by with_unfolding_all rfl,
   calibration_parser_spec "" "1" "6" "3/8" 1 6 (3 / 8)
     (by with_unfolding_all rfl) (by with_unfolding_all rfl) (by with_unfolding_all rfl)⟩

end MarkThat
